import Mathlib

/-!
# io_uring ring setup (`uring/uring.go`)

A shallow embedding of the negotiation-and-mapping code of `uring/uring.go`:

* the Go struct declarations (`CQE`, `SQE`, `uringParams`, `sqRingParams`,
  `cqRingParams`) as field lists, with the layout rule of the Go compiler on
  a 64-bit target (`unsafe.Sizeof`, `unsafe.Offsetof`);
* `singleMMap`, `setSizes`, `getPointer`, `mmapRing`, `setupRing` and
  `NewUring`, as functions on an explicit instance state, with the two system
  calls (`io_uring_setup`, `mmap`) taken as parameters and every system call
  recorded in a trace.

Machine integers are natural numbers, reduced modulo `2 ^ 64` wherever the
Go code computes in `uint64` / `uintptr`.
-/

namespace IoUring

/-! ## Struct layout -/

/-- One field of a Go struct: its name, `unsafe.Sizeof` and `unsafe.Alignof`. -/
structure Field where
  name : String
  size : Nat
  align : Nat
  deriving Repr, DecidableEq

/-- Round `n` up to the next multiple of `a`. -/
def alignUp (n a : Nat) : Nat := (n + a - 1) / a * a

/-- Field offsets of a struct whose fields are laid out in declaration
order starting at byte `cur`, each at the next multiple of its alignment. -/
def offsetsFrom : Nat → List Field → List (String × Nat)
  | _, [] => []
  | cur, f :: fs => (f.name, alignUp cur f.align) :: offsetsFrom (alignUp cur f.align + f.size) fs

/-- First byte after the last field. -/
def endFrom : Nat → List Field → Nat
  | cur, [] => cur
  | cur, f :: fs => endFrom (alignUp cur f.align + f.size) fs

/-- The alignment of a struct: the largest alignment of a field. -/
def structAlign : List Field → Nat
  | [] => 1
  | f :: fs => max f.align (structAlign fs)

/-- The size of a struct (`unsafe.Sizeof`): end of the last field, rounded up
to the struct's alignment. -/
def structSize (fs : List Field) : Nat := alignUp (endFrom 0 fs) (structAlign fs)

/-- The offset of a named field (`unsafe.Offsetof`). -/
def offsetOf (fs : List Field) (name : String) : Option Nat :=
  ((offsetsFrom 0 fs).find? (fun p => p.1 == name)).map Prod.snd

def uint8 (name : String) : Field := ⟨name, 1, 1⟩
def uint16 (name : String) : Field := ⟨name, 2, 2⟩
def uint32 (name : String) : Field := ⟨name, 4, 4⟩
def int32 (name : String) : Field := ⟨name, 4, 4⟩
def uint64 (name : String) : Field := ⟨name, 8, 8⟩

/-- A field of array type `[n]T`, from the size and alignment of `T`. -/
def arrayOf (name : String) (n : Nat) (elem : Field) : Field := ⟨name, n * elem.size, elem.align⟩

/-- A field of struct type, from the field list of the struct. -/
def structOf (name : String) (fs : List Field) : Field := ⟨name, structSize fs, structAlign fs⟩

/-- Declaration of `type CQE struct`. -/
def CQE : List Field := [uint64 "userData", int32 "res", uint32 "flags"]

/-- Declaration of `type SQE struct`. -/
def SQE : List Field :=
  [uint8 "opcode", uint8 "flags", uint16 "ioprio", int32 "fd", uint64 "off", uint64 "addr",
   uint32 "len", uint32 "opcodeFlags", uint64 "userData", uint16 "bufIndex",
   uint16 "personality", uint32 "spliceFdIn", arrayOf "_pad2" 2 (uint64 "")]

/-- Declaration of `type sqRingParams struct`. -/
def sqRingParams : List Field :=
  [uint32 "head", uint32 "tail", uint32 "ringMask", uint32 "ringEntries", uint32 "flags",
   uint32 "dropped", uint32 "array", uint32 "rsv1", uint64 "rsv2"]

/-- Declaration of `type cqRingParams struct`. -/
def cqRingParams : List Field :=
  [uint32 "head", uint32 "tail", uint32 "ringMask", uint32 "ringEntries", uint32 "overflow",
   uint32 "cqes", uint32 "flags", uint32 "rsv1", uint64 "rsv2"]

/-- Declaration of `type uringParams struct`. -/
def uringParams : List Field :=
  [uint32 "sqEntries", uint32 "cqEntries", uint32 "flags", uint32 "sqThreadCpu",
   uint32 "sqThreadIdle", uint32 "features", uint32 "wqFd", arrayOf "resv" 5 (uint32 ""),
   structOf "sqRingOffsets" sqRingParams, structOf "cqRingOffsets" cqRingParams]

/-! ## Constants -/

def sqRingOff : Nat := 0
def cqRingOff : Nat := 0x8000000
def sqesOff : Nat := 0x10000000

def featSingleMMap : Nat := 1 <<< 0

/-! ## Data model -/

/-- Values of `sqRingParams` (all fields `uint32`, `rsv2` is `uint64`). -/
structure SqRingParams where
  head : Nat
  tail : Nat
  ringMask : Nat
  ringEntries : Nat
  flags : Nat
  dropped : Nat
  array : Nat
  rsv1 : Nat
  rsv2 : Nat
  deriving Repr, DecidableEq

/-- Values of `cqRingParams`. -/
structure CqRingParams where
  head : Nat
  tail : Nat
  ringMask : Nat
  ringEntries : Nat
  overflow : Nat
  cqes : Nat
  flags : Nat
  rsv1 : Nat
  rsv2 : Nat
  deriving Repr, DecidableEq

/-- Values of `uringParams` (the reserved words `resv` carry no data used by
the code and are left out). -/
structure UringParams where
  sqEntries : Nat
  cqEntries : Nat
  flags : Nat
  sqThreadCpu : Nat
  sqThreadIdle : Nat
  features : Nat
  wqFd : Nat
  sqRingOffsets : SqRingParams
  cqRingOffsets : CqRingParams
  deriving Repr, DecidableEq

/-- A mapped byte slice (`[]byte` returned by `syscall.Mmap`): address of its
first byte and its length. -/
structure Buffer where
  base : Nat
  len : Nat
  deriving Repr, DecidableEq

/-- The `sqRing` struct. A slice or pointer field that was never assigned
(Go's zero value `nil`) is `none`; a pointer field that was assigned the result
of `getPointer` is `some` of that address. -/
structure SqRing where
  size : Nat
  buffer : Option Buffer
  head : Option Nat
  tail : Option Nat
  ringMask : Option Nat
  ringEntries : Option Nat
  flags : Option Nat
  dropped : Option Nat
  array : Option Nat
  deriving Repr, DecidableEq

/-- The `cqRing` struct. -/
structure CqRing where
  size : Nat
  buffer : Option Buffer
  head : Option Nat
  tail : Option Nat
  ringMask : Option Nat
  ringEntries : Option Nat
  overflow : Option Nat
  flags : Option Nat
  currentCQE : Option Nat
  deriving Repr, DecidableEq

/-- The `uring` struct. -/
structure Uring where
  fd : Int
  params : UringParams
  sqRing : SqRing
  cqRing : CqRing
  sqeBuffer : Option Buffer
  deriving Repr, DecidableEq

/-- The zero value `&sqRing{}`. -/
def SqRing.zero : SqRing := ⟨0, none, none, none, none, none, none, none, none⟩

/-- The zero value `&cqRing{}`. -/
def CqRing.zero : CqRing := ⟨0, none, none, none, none, none, none, none, none⟩

/-! ## System calls -/

/-- Result of one `syscall.Mmap` call: the slice, or the error number. -/
inductive MmapResult where
  | ok (data : Buffer)
  | err (errno : Nat)
  deriving Repr, DecidableEq

/-- The `mmap` system call as seen from the process: from the descriptor,
the offset and the (positive) length to the address of the new region, or to
an error number. -/
abbrev Kernel := (fd : Int) → (offset : Nat) → (length : Nat) → Except Nat Nat

/-- Mapping and unmapping calls made during a run, in order: a call of
`syscall.Mmap` with its offset, its length and what it returned, or a call of
`syscall.Munmap` with the region it released. -/
inductive Event where
  | mmap (offset : Nat) (length : Int) (result : MmapResult)
  | munmap (region : Buffer)
  deriving Repr, DecidableEq

/-- The conversion `int(x)` of a `uint64` / `uintptr` on a 64-bit target. -/
def toInt (x : Nat) : Int :=
  if x % 2 ^ 64 < 2 ^ 63 then ((x % 2 ^ 64 : Nat) : Int) else ((x % 2 ^ 64 : Nat) : Int) - 2 ^ 64

/-- Go's `syscall.Mmap(fd, offset, length, prot, flags)` on Linux: a length
that is not positive is refused with `EINVAL` (22) before the system call is
made; an error of the system call is returned with a `nil` slice; on success
the slice starts at the returned address and has exactly `length` bytes. -/
def sysMmap (k : Kernel) (fd : Int) (offset : Nat) (length : Int) : MmapResult :=
  if length ≤ 0 then .err 22
  else
    match k fd offset length.toNat with
    | .error e => .err e
    | .ok addr => .ok ⟨addr, length.toNat⟩

/-! ## The code -/

/-- Go `func (p *uringParams) singleMMap() bool`. -/
def singleMMap (p : UringParams) : Bool := p.features &&& featSingleMMap != 0

/-- Go `func (u *uring) setSizes()`; `unsafe.Sizeof(uint32(0))` is 4 and
`unsafe.Sizeof(CQE{})` is `structSize CQE`. -/
def setSizes (u : Uring) : Uring :=
  { u with
    sqRing := { u.sqRing with
      size := (u.params.sqRingOffsets.array + u.params.sqRingOffsets.ringEntries * 4) % 2 ^ 64 }
    cqRing := { u.cqRing with
      size := (u.params.cqRingOffsets.cqes
                + u.params.cqRingOffsets.ringEntries * structSize CQE) % 2 ^ 64 } }

/-- Go `func getPointer(b *byte, offset uint32) *uint32`: the address of `b`
plus the offset, in `uintptr` arithmetic. -/
def getPointer (b : Nat) (offset : Nat) : Nat := (b + offset) % 2 ^ 64

/-- The expression `&buf[0]`: the address of the first byte; indexing a `nil`
or empty slice panics (`none`). -/
def addrOfFirst : Option Buffer → Option Nat
  | some b => if 0 < b.len then some b.base else none
  | none => none

/-- How a call of `mmapRing` ends. -/
inductive Ret where
  | nil
  | error (errno : Nat)
  | panic
  deriving Repr, DecidableEq

/-- A finished run of `mmapRing`: how it ended, the instance as it left it,
and the system calls it made. -/
structure Run where
  ret : Ret
  u : Uring
  trace : List Event
  deriving Repr, DecidableEq

/-- Go `func (u *uring) mmapRing() error`, with the calls it makes recorded in
order. The three `syscall.Mmap` calls pass `u.fd`, the constant offset,
`int(size)` and constant protection and flags. -/
def mmapRing (k : Kernel) (u : Uring) : Run :=
  let r1 := sysMmap k u.fd sqRingOff (toInt u.sqRing.size)
  let t1 := [Event.mmap sqRingOff (toInt u.sqRing.size) r1]
  match r1 with
  | .err _ => ⟨.nil, u, t1⟩
  | .ok data =>
    let u := { u with sqRing := { u.sqRing with buffer := some data } }
    let u :=
      if singleMMap u.params then
        let u :=
          if u.cqRing.size > u.sqRing.size then
            { u with sqRing := { u.sqRing with size := u.cqRing.size } }
          else u
        { u with cqRing := { u.cqRing with size := u.sqRing.size } }
      else u
    let mapped : Except Run (Uring × List Event) :=
      if singleMMap u.params then
        .ok ({ u with cqRing := { u.cqRing with buffer := u.sqRing.buffer } }, t1)
      else
        let r2 := sysMmap k u.fd cqRingOff (toInt u.cqRing.size)
        let t2 := t1 ++ [Event.mmap cqRingOff (toInt u.cqRing.size) r2]
        match r2 with
        | .err e => .error ⟨.error e, u, t2⟩
        | .ok data => .ok ({ u with cqRing := { u.cqRing with buffer := some data } }, t2)
    match mapped with
    | .error r => r
    | .ok (u, t2) =>
      match addrOfFirst u.sqRing.buffer with
      | none => ⟨.panic, u, t2⟩
      | some sqPtr =>
        let u := { u with sqRing := { u.sqRing with
          head := some (getPointer sqPtr u.params.sqRingOffsets.head)
          tail := some (getPointer sqPtr u.params.sqRingOffsets.tail)
          ringMask := some (getPointer sqPtr u.params.sqRingOffsets.ringMask)
          ringEntries := some (getPointer sqPtr u.params.sqRingOffsets.ringEntries)
          flags := some (getPointer sqPtr u.params.sqRingOffsets.flags)
          dropped := some (getPointer sqPtr u.params.sqRingOffsets.dropped)
          array := some (getPointer sqPtr u.params.sqRingOffsets.array) } }
        let sqeBufferSize := (u.params.sqEntries * structSize SQE) % 2 ^ 64
        let r3 := sysMmap k u.fd sqesOff (toInt sqeBufferSize)
        let t3 := t2 ++ [Event.mmap sqesOff (toInt sqeBufferSize) r3]
        let u := { u with sqeBuffer := match r3 with
                                        | .ok data => some data
                                        | .err _ => none }
        match addrOfFirst u.cqRing.buffer with
        | none => ⟨.panic, u, t3⟩
        | some cqPtr =>
          let u := { u with cqRing := { u.cqRing with
            head := some (getPointer cqPtr u.params.cqRingOffsets.head)
            tail := some (getPointer cqPtr u.params.cqRingOffsets.tail)
            ringMask := some (getPointer cqPtr u.params.cqRingOffsets.ringMask)
            ringEntries := some (getPointer cqPtr u.params.cqRingOffsets.ringEntries) } }
          let u :=
            if u.params.cqRingOffsets.flags != 0 then
              { u with cqRing := { u.cqRing with
                flags := some (getPointer cqPtr u.params.cqRingOffsets.flags) } }
            else u
          ⟨.nil, u, t3⟩

/-- What the `io_uring_setup` system call left behind: the value of its
result register, the error number (0 for none) and the parameter record as
the process reads it afterwards. -/
structure SetupResult where
  fd : Int
  errno : Nat
  params : UringParams
  deriving Repr, DecidableEq

/-- The `io_uring_setup` system call, from the requested entry count. -/
abbrev SetupCall := (entries : Nat) → SetupResult

/-- Go `func setupRing(entries uint32, params *uringParams) (int, error)`; the
record written through `params` is returned as the third component. -/
def setupRing (sys : SetupCall) (entries : Nat) : Int × Option Nat × UringParams :=
  let r := sys entries
  if r.errno != 0 then (r.fd, some r.errno, r.params) else (r.fd, none, r.params)

/-- The instance `NewUring` builds from the descriptor and the parameter
record, before sizing and mapping: `&uring{fd, params, &sqRing{}, &cqRing{}}`. -/
def fresh (fd : Int) (params : UringParams) : Uring :=
  ⟨fd, params, SqRing.zero, CqRing.zero, none⟩

/-- Go `func NewUring(entries uint32) *uring`; `none` when it panics. -/
def NewUring (sys : SetupCall) (k : Kernel) (entries : Nat) : Option Uring :=
  match setupRing sys entries with
  | (_, some _, _) => none
  | (fd, none, params) =>
    let r := mmapRing k (setSizes (fresh fd params))
    match r.ret with
    | .nil => some r.u
    | _ => none

/-! ## Sample inputs -/

/-- The offsets a Linux kernel reports for a ring of 32 submission and 64
completion entries. -/
def sampleParams (features : Nat) : UringParams :=
  { sqEntries := 32, cqEntries := 64, flags := 0, sqThreadCpu := 0, sqThreadIdle := 0,
    features := features, wqFd := 0,
    sqRingOffsets := ⟨0, 64, 256, 264, 276, 272, 1344, 0, 0⟩,
    cqRingOffsets := ⟨128, 192, 260, 268, 284, 320, 280, 0, 0⟩ }

/-- A setup call that grants `sampleParams` on descriptor 3. -/
def sampleSetup (features : Nat) : SetupCall := fun _ => ⟨3, 0, sampleParams features⟩

/-- A kernel that maps every region, at an address derived from the offset. -/
def kernelOk : Kernel := fun _ offset _ => .ok (0x7f0000000000 + offset)

/-- A kernel that refuses every mapping with `ENOMEM` (12). -/
def kernelFail : Kernel := fun _ _ _ => .error 12

/-- A kernel that maps the submission ring only. -/
def kernelSqOnly : Kernel := fun _ offset _ =>
  if offset = sqRingOff then .ok 0x7f0000000000 else .error 12

/-- A kernel that maps both rings but not the submission-entry array. -/
def kernelNoSqes : Kernel := fun _ offset _ =>
  if offset = sqesOff then .error 12 else .ok (0x7f0000000000 + offset)

/-! ## Observations on a run -/

/-- Both ring regions get mapped, so that `mmapRing` goes on to resolve the
field pointers: the submission-ring mapping call succeeds and, when the
single-mapping bit is clear, so does the completion-ring mapping call. -/
def RingsMapped (k : Kernel) (u : Uring) : Prop :=
  (∃ b, sysMmap k u.fd sqRingOff (toInt u.sqRing.size) = .ok b) ∧
  (singleMMap u.params = false →
    ∃ b, sysMmap k u.fd cqRingOff (toInt u.cqRing.size) = .ok b)

/-- Whether an event is a mapping call at the given offset. -/
def Event.isMmapAt (offset : Nat) : Event → Bool
  | .mmap o _ _ => o == offset
  | .munmap _ => false

/-- The control-field handles of an instance, each with the buffer of the
ring that owns it and the offset the kernel reported for the field. -/
def handles (u : Uring) : List (Option Nat × Option Buffer × Nat) :=
  [ (u.sqRing.head, u.sqRing.buffer, u.params.sqRingOffsets.head),
    (u.sqRing.tail, u.sqRing.buffer, u.params.sqRingOffsets.tail),
    (u.sqRing.ringMask, u.sqRing.buffer, u.params.sqRingOffsets.ringMask),
    (u.sqRing.ringEntries, u.sqRing.buffer, u.params.sqRingOffsets.ringEntries),
    (u.sqRing.flags, u.sqRing.buffer, u.params.sqRingOffsets.flags),
    (u.sqRing.dropped, u.sqRing.buffer, u.params.sqRingOffsets.dropped),
    (u.sqRing.array, u.sqRing.buffer, u.params.sqRingOffsets.array),
    (u.cqRing.head, u.cqRing.buffer, u.params.cqRingOffsets.head),
    (u.cqRing.tail, u.cqRing.buffer, u.params.cqRingOffsets.tail),
    (u.cqRing.ringMask, u.cqRing.buffer, u.params.cqRingOffsets.ringMask),
    (u.cqRing.ringEntries, u.cqRing.buffer, u.params.cqRingOffsets.ringEntries),
    (u.cqRing.overflow, u.cqRing.buffer, u.params.cqRingOffsets.overflow),
    (u.cqRing.flags, u.cqRing.buffer, u.params.cqRingOffsets.flags) ]

/-- In the trace, every successful mapping is followed by an unmapping of the
region it returned. -/
def EveryMappingReleased (t : List Event) : Prop :=
  ∀ i offset length region, t.get? i = some (Event.mmap offset length (.ok region)) →
    ∃ j, i < j ∧ t.get? j = some (Event.munmap region)

/-- The instance after pointer resolution, written out field by field: the
sizes and buffers of the two rings, the handles assigned by lines 219-244, and
the result of the submission-entry-array mapping. -/
def resolved (u : Uring) (sqSize cqSize : Nat) (sqb cqb : Buffer) (r3 : MmapResult) : Uring :=
  { fd := u.fd
    params := u.params
    sqRing :=
      { size := sqSize
        buffer := some sqb
        head := some (getPointer sqb.base u.params.sqRingOffsets.head)
        tail := some (getPointer sqb.base u.params.sqRingOffsets.tail)
        ringMask := some (getPointer sqb.base u.params.sqRingOffsets.ringMask)
        ringEntries := some (getPointer sqb.base u.params.sqRingOffsets.ringEntries)
        flags := some (getPointer sqb.base u.params.sqRingOffsets.flags)
        dropped := some (getPointer sqb.base u.params.sqRingOffsets.dropped)
        array := some (getPointer sqb.base u.params.sqRingOffsets.array) }
    cqRing :=
      { size := cqSize
        buffer := some cqb
        head := some (getPointer cqb.base u.params.cqRingOffsets.head)
        tail := some (getPointer cqb.base u.params.cqRingOffsets.tail)
        ringMask := some (getPointer cqb.base u.params.cqRingOffsets.ringMask)
        ringEntries := some (getPointer cqb.base u.params.cqRingOffsets.ringEntries)
        overflow := u.cqRing.overflow
        flags := if u.params.cqRingOffsets.flags = 0 then u.cqRing.flags
                 else some (getPointer cqb.base u.params.cqRingOffsets.flags)
        currentCQE := u.cqRing.currentCQE }
    sqeBuffer := match r3 with
                 | .ok data => some data
                 | .err _ => none }

/-- The length passed to the submission-entry-array mapping call. -/
def sqesLength (u : Uring) : Int := toInt ((u.params.sqEntries * structSize SQE) % 2 ^ 64)

/-- A record of a 32-entry ring whose submission-ring head offset (4096) lies
beyond the computed submission-ring size (2400). -/
def farHeadParams : UringParams :=
  { sampleParams 0 with sqRingOffsets := { (sampleParams 0).sqRingOffsets with head := 4096 } }

/-! ## Lemmas -/

theorem sysMmap_ok_len {k : Kernel} {fd : Int} {offset : Nat} {length : Int} {b : Buffer}
    (h : sysMmap k fd offset length = .ok b) : 0 < b.len ∧ b.len = length.toNat := by
  unfold sysMmap at h
  split at h
  · simp at h
  · rename_i hlen
    split at h
    · simp at h
    · simp only [MmapResult.ok.injEq] at h
      subst h
      simp only [and_true]
      omega

theorem addrOfFirst_of_ok {k : Kernel} {fd : Int} {offset : Nat} {length : Int} {b : Buffer}
    (h : sysMmap k fd offset length = .ok b) : addrOfFirst (some b) = some b.base := by
  simp [addrOfFirst, (sysMmap_ok_len h).1]

/-- When the first mapping call fails, `mmapRing` returns `nil` at once. -/
theorem mmapRing_sq_err {k : Kernel} {u : Uring} {e : Nat}
    (h : sysMmap k u.fd sqRingOff (toInt u.sqRing.size) = .err e) :
    mmapRing k u = ⟨.nil, u, [Event.mmap sqRingOff (toInt u.sqRing.size) (.err e)]⟩ := by
  simp [mmapRing, h]

/-- When the completion-ring mapping call fails, `mmapRing` returns its error. -/
theorem mmapRing_cq_err {k : Kernel} {u : Uring} {b : Buffer} {e : Nat}
    (h1 : sysMmap k u.fd sqRingOff (toInt u.sqRing.size) = .ok b)
    (hs : singleMMap u.params = false)
    (h2 : sysMmap k u.fd cqRingOff (toInt u.cqRing.size) = .err e) :
    mmapRing k u =
      ⟨.error e, { u with sqRing := { u.sqRing with buffer := some b } },
       [Event.mmap sqRingOff (toInt u.sqRing.size) (.ok b),
        Event.mmap cqRingOff (toInt u.cqRing.size) (.err e)]⟩ := by
  simp [mmapRing, h1, hs, h2]

/-- The run with the single-mapping bit set and the first mapping granted. -/
theorem mmapRing_single {k : Kernel} {u : Uring} {b : Buffer}
    (h1 : sysMmap k u.fd sqRingOff (toInt u.sqRing.size) = .ok b)
    (hs : singleMMap u.params = true) :
    mmapRing k u =
      ⟨.nil,
       resolved u (max u.sqRing.size u.cqRing.size) (max u.sqRing.size u.cqRing.size) b b
         (sysMmap k u.fd sqesOff (sqesLength u)),
       [Event.mmap sqRingOff (toInt u.sqRing.size) (.ok b),
        Event.mmap sqesOff (sqesLength u) (sysMmap k u.fd sqesOff (sqesLength u))]⟩ := by
  have hb := addrOfFirst_of_ok h1
  by_cases hgt : u.sqRing.size < u.cqRing.size <;>
    by_cases hf : u.params.cqRingOffsets.flags = 0 <;>
    simp [mmapRing, h1, hs, hb, hgt, hf, resolved, sqesLength] <;> omega

/-- The run with the single-mapping bit clear and both ring mappings granted. -/
theorem mmapRing_dual {k : Kernel} {u : Uring} {b1 b2 : Buffer}
    (h1 : sysMmap k u.fd sqRingOff (toInt u.sqRing.size) = .ok b1)
    (hs : singleMMap u.params = false)
    (h2 : sysMmap k u.fd cqRingOff (toInt u.cqRing.size) = .ok b2) :
    mmapRing k u =
      ⟨.nil,
       resolved u u.sqRing.size u.cqRing.size b1 b2 (sysMmap k u.fd sqesOff (sqesLength u)),
       [Event.mmap sqRingOff (toInt u.sqRing.size) (.ok b1),
        Event.mmap cqRingOff (toInt u.cqRing.size) (.ok b2),
        Event.mmap sqesOff (sqesLength u) (sysMmap k u.fd sqesOff (sqesLength u))]⟩ := by
  have hb1 := addrOfFirst_of_ok h1
  have hb2 := addrOfFirst_of_ok h2
  by_cases hf : u.params.cqRingOffsets.flags = 0 <;>
    simp [mmapRing, h1, hs, h2, hb1, hb2, hf, resolved, sqesLength]

/-- Every run of `mmapRing` is one of four, by the outcome of the two ring
mapping calls. -/
theorem mmapRing_cases (k : Kernel) (u : Uring) :
    (∃ e, sysMmap k u.fd sqRingOff (toInt u.sqRing.size) = .err e) ∨
    (∃ b, sysMmap k u.fd sqRingOff (toInt u.sqRing.size) = .ok b ∧ singleMMap u.params = true) ∨
    (∃ b e, sysMmap k u.fd sqRingOff (toInt u.sqRing.size) = .ok b ∧
      singleMMap u.params = false ∧ sysMmap k u.fd cqRingOff (toInt u.cqRing.size) = .err e) ∨
    (∃ b1 b2, sysMmap k u.fd sqRingOff (toInt u.sqRing.size) = .ok b1 ∧
      singleMMap u.params = false ∧ sysMmap k u.fd cqRingOff (toInt u.cqRing.size) = .ok b2) := by
  cases h1 : sysMmap k u.fd sqRingOff (toInt u.sqRing.size) with
  | err e => exact Or.inl ⟨e, rfl⟩
  | ok b =>
    cases hs : singleMMap u.params with
    | true => exact Or.inr (Or.inl ⟨b, rfl, rfl⟩)
    | false =>
      cases h2 : sysMmap k u.fd cqRingOff (toInt u.cqRing.size) with
      | err e => exact Or.inr (Or.inr (Or.inl ⟨b, e, rfl, rfl, rfl⟩))
      | ok b2 => exact Or.inr (Or.inr (Or.inr ⟨b, b2, rfl, rfl, rfl⟩))

/-! ## Ring sizing -/

/-- C1: `setSizes` does not compute the submission ring's size from the granted
entry count. For the record of a 32-entry ring (array offset 1344, ring-entries
field at offset 264) it yields 1344 + 264 * 4 = 2400 where the claim gives
1344 + 32 * 4 = 1472; in general the size is
`sqRingOffsets.array + sqRingOffsets.ringEntries * 4`, whatever `sqEntries` is. -/
theorem setSizes_sq_size_from_ring_entries_offset :
    (setSizes (fresh 3 (sampleParams 0))).sqRing.size = 2400 ∧
    (sampleParams 0).sqRingOffsets.array + (sampleParams 0).sqEntries * 4 = 1472 ∧
    (∀ u : Uring, (setSizes u).sqRing.size =
      (u.params.sqRingOffsets.array + u.params.sqRingOffsets.ringEntries * 4) % 2 ^ 64) ∧
    (∀ (u : Uring) (n : Nat),
      (setSizes { u with params := { u.params with sqEntries := n } }).sqRing.size =
        (setSizes u).sqRing.size) := by
  refine ⟨by decide, by decide, fun _ => rfl, fun _ _ => rfl⟩

/-- C2: `setSizes` does not compute the completion ring's size from the granted
entry count. The entry width is 16 bytes, but for the record of a ring with 64
completion entries (entries at offset 320, ring-entries field at offset 268)
the size is 320 + 268 * 16 = 4608 where the claim gives 320 + 64 * 16 = 1344;
in general it is `cqRingOffsets.cqes + cqRingOffsets.ringEntries * 16`,
whatever `cqEntries` is. -/
theorem setSizes_cq_size_from_ring_entries_offset :
    structSize CQE = 16 ∧
    (setSizes (fresh 3 (sampleParams 0))).cqRing.size = 4608 ∧
    (sampleParams 0).cqRingOffsets.cqes + (sampleParams 0).cqEntries * 16 = 1344 ∧
    (∀ u : Uring, (setSizes u).cqRing.size =
      (u.params.cqRingOffsets.cqes + u.params.cqRingOffsets.ringEntries * 16) % 2 ^ 64) ∧
    (∀ (u : Uring) (n : Nat),
      (setSizes { u with params := { u.params with cqEntries := n } }).cqRing.size =
        (setSizes u).cqRing.size) := by
  refine ⟨by decide, by decide, by decide, fun _ => rfl, fun _ _ => rfl⟩

/-! ## Mapping failures -/

/-- C3: a failed mapping call does not make `mmapRing` return an error. When
the kernel refuses the submission-ring mapping (here with error 12), `mmapRing`
returns `nil` after that one call and `NewUring` returns the instance, with
no region mapped; when only the submission-entry-array mapping is refused,
`mmapRing` returns `nil` as well. -/
theorem mmapRing_nil_on_failed_mapping :
    mmapRing kernelFail (setSizes (fresh 3 (sampleParams 0))) =
      ⟨.nil, setSizes (fresh 3 (sampleParams 0)), [Event.mmap sqRingOff 2400 (.err 12)]⟩ ∧
    NewUring (sampleSetup 0) kernelFail 32 = some (setSizes (fresh 3 (sampleParams 0))) ∧
    (mmapRing kernelNoSqes (setSizes (fresh 3 (sampleParams 0)))).ret = .nil ∧
    (mmapRing kernelNoSqes (setSizes (fresh 3 (sampleParams 0)))).trace.getLast? =
      some (Event.mmap sqesOff 2048 (.err 12)) ∧
    (NewUring (sampleSetup 0) kernelNoSqes 32).isSome = true := by
  refine ⟨by decide, by decide, by decide, by decide, by decide⟩

/-! ## The shared mapping -/

/-- C4: with the single-mapping bit set, the one ring mapping is requested with
the submission ring's size, not with the larger of the two sizes: the maximum
is taken after the mapping call. For the record of a 32-entry ring `setSizes`
gives 2400 and 4608; the mapping call asks for 2400 bytes, the buffer both
rings use is 2400 bytes long, and the sizes recorded afterwards are 4608. -/
theorem mmapRing_single_maps_submission_size :
    singleMMap (sampleParams 1) = true ∧
    (setSizes (fresh 3 (sampleParams 1))).sqRing.size = 2400 ∧
    (setSizes (fresh 3 (sampleParams 1))).cqRing.size = 4608 ∧
    (mmapRing kernelOk (setSizes (fresh 3 (sampleParams 1)))).trace =
      [Event.mmap sqRingOff 2400 (.ok ⟨0x7f0000000000, 2400⟩),
       Event.mmap sqesOff 2048 (.ok ⟨0x7f0010000000, 2048⟩)] ∧
    (mmapRing kernelOk (setSizes (fresh 3 (sampleParams 1)))).u.sqRing.buffer =
      some ⟨0x7f0000000000, 2400⟩ ∧
    (mmapRing kernelOk (setSizes (fresh 3 (sampleParams 1)))).u.cqRing.buffer =
      some ⟨0x7f0000000000, 2400⟩ ∧
    (mmapRing kernelOk (setSizes (fresh 3 (sampleParams 1)))).u.sqRing.size = 4608 ∧
    (mmapRing kernelOk (setSizes (fresh 3 (sampleParams 1)))).u.cqRing.size = 4608 := by
  refine ⟨by decide, by decide, by decide, by decide, by decide, by decide, by decide, by decide⟩

/-- C5: in a run of `setSizes` followed by `mmapRing` in which the ring
mapping calls succeed: with the single-mapping bit set, no mapping call is made
at the completion-ring offset and the completion ring's buffer is the buffer
the submission-ring mapping returned; with the bit clear, exactly one mapping
call is made at the completion-ring offset, with the completion ring's size as
`setSizes` computed it, and its result is the completion ring's buffer. -/
theorem mmapRing_completion_buffer (k : Kernel) (u : Uring)
    (hmap : RingsMapped k (setSizes u)) :
    cqRingOff = 0x8000000 ∧
    (singleMMap u.params = true →
      (∀ length result,
        Event.mmap cqRingOff length result ∉ (mmapRing k (setSizes u)).trace) ∧
      ∃ b, (mmapRing k (setSizes u)).trace.head? =
            some (Event.mmap sqRingOff (toInt (setSizes u).sqRing.size) (.ok b)) ∧
          (mmapRing k (setSizes u)).u.sqRing.buffer = some b ∧
          (mmapRing k (setSizes u)).u.cqRing.buffer = some b) ∧
    (singleMMap u.params = false →
      ∃ b, (mmapRing k (setSizes u)).trace.filter (Event.isMmapAt cqRingOff) =
            [Event.mmap cqRingOff (toInt (setSizes u).cqRing.size) (.ok b)] ∧
          (mmapRing k (setSizes u)).u.cqRing.buffer = some b) := by
  obtain ⟨⟨b1, h1⟩, h2⟩ := hmap
  refine ⟨rfl, fun hs => ?_, fun hs => ?_⟩
  · have hs' : singleMMap (setSizes u).params = true := hs
    rw [mmapRing_single h1 hs']
    refine ⟨fun length result hmem => ?_, b1, rfl, rfl, rfl⟩
    simp [sqRingOff, cqRingOff, sqesOff] at hmem
  · have hs' : singleMMap (setSizes u).params = false := hs
    obtain ⟨b2, h2⟩ := h2 hs'
    rw [mmapRing_dual h1 hs' h2]
    refine ⟨b2, ?_, rfl⟩
    simp [List.filter, Event.isMmapAt, sqRingOff, cqRingOff, sqesOff]

/-- The runs of C5 on the record of a 32-entry ring with a kernel that grants
every mapping: with the single-mapping bit set the completion ring's buffer is
the submission ring's, with the bit clear it is the result of the one mapping
call made at the completion-ring offset. -/
theorem mmapRing_completion_buffer_witness :
    (∃ b, (mmapRing kernelOk (setSizes (fresh 3 (sampleParams 1)))).trace.head? =
            some (Event.mmap sqRingOff
              (toInt (setSizes (fresh 3 (sampleParams 1))).sqRing.size) (.ok b)) ∧
          (mmapRing kernelOk (setSizes (fresh 3 (sampleParams 1)))).u.sqRing.buffer = some b ∧
          (mmapRing kernelOk (setSizes (fresh 3 (sampleParams 1)))).u.cqRing.buffer = some b) ∧
    (∃ b, (mmapRing kernelOk (setSizes (fresh 3 (sampleParams 0)))).trace.filter
            (Event.isMmapAt cqRingOff) =
          [Event.mmap cqRingOff (toInt (setSizes (fresh 3 (sampleParams 0))).cqRing.size)
            (.ok b)] ∧
        (mmapRing kernelOk (setSizes (fresh 3 (sampleParams 0)))).u.cqRing.buffer = some b) :=
  ⟨((mmapRing_completion_buffer kernelOk (fresh 3 (sampleParams 1))
      ⟨⟨⟨0x7f0000000000, 2400⟩, by decide⟩, fun h => absurd h (by decide)⟩).2.1 (by decide)).2,
   (mmapRing_completion_buffer kernelOk (fresh 3 (sampleParams 0))
      ⟨⟨⟨0x7f0000000000, 2400⟩, by decide⟩,
       fun _ => ⟨⟨0x7f0008000000, 4608⟩, by decide⟩⟩).2.2 (by decide)⟩

/-! ## Structure layout -/

/-- C6: laid out by Go's rules, `uringParams` is 128 bytes long, its submission
offsets record starts at byte 48 and its completion offsets record at byte 88
(each record being 40 bytes), because seven 32-bit words and `resv [5]uint32`
come first: not the 120, 40 and 80 of the kernel's structure. -/
theorem uringParams_layout :
    structSize uringParams = 128 ∧
    offsetOf uringParams "sqRingOffsets" = some 48 ∧
    offsetOf uringParams "cqRingOffsets" = some 88 ∧
    structSize sqRingParams = 40 ∧
    structSize cqRingParams = 40 ∧
    offsetOf uringParams "resv" = some 28 ∧
    (arrayOf "resv" 5 (uint32 "")).size = 20 := by
  refine ⟨by decide, by decide, by decide, by decide, by decide, by decide, by decide⟩

/-! ## Pointer resolution -/

/-- C7: a run of `mmapRing` that returns without error can leave handles nil.
The completion ring's overflow handle is never assigned: after any run on a new
instance it is nil, also when every mapping succeeds and `nil` is returned;
and when the first mapping fails `nil` is returned with no handle resolved. -/
theorem mmapRing_leaves_handles_nil :
    (∀ (k : Kernel) (fd : Int) (params : UringParams),
      (mmapRing k (setSizes (fresh fd params))).u.cqRing.overflow = none) ∧
    (mmapRing kernelOk (setSizes (fresh 3 (sampleParams 0)))).ret = .nil ∧
    (mmapRing kernelOk (setSizes (fresh 3 (sampleParams 0)))).u.cqRing.overflow = none ∧
    (mmapRing kernelOk (setSizes (fresh 3 (sampleParams 0)))).u.cqRing.head =
      some (0x7f0008000000 + 128) ∧
    (mmapRing kernelFail (setSizes (fresh 3 (sampleParams 0)))).ret = .nil ∧
    (mmapRing kernelFail (setSizes (fresh 3 (sampleParams 0)))).u.sqRing.head = none := by
  refine ⟨fun k fd params => ?_, by decide, by decide, by decide, by decide, by decide⟩
  rcases mmapRing_cases k (setSizes (fresh fd params)) with
    ⟨e, h1⟩ | ⟨b, h1, hs⟩ | ⟨b, e, h1, hs, h2⟩ | ⟨b1, b2, h1, hs, h2⟩
  · rw [mmapRing_sq_err h1]; rfl
  · rw [mmapRing_single h1 hs]; rfl
  · rw [mmapRing_cq_err h1 hs h2]; rfl
  · rw [mmapRing_dual h1 hs h2]; rfl

/-- C8, as stated, fails: for a record whose reported head offset is 4096 and
whose submission-ring buffer is 2400 bytes long, `mmapRing` returns `nil` and
the head handle is constructed at base + 4096, outside the mapped region. -/
theorem handle_outside_region :
    (mmapRing kernelOk (setSizes (fresh 3 farHeadParams))).ret = .nil ∧
    (mmapRing kernelOk (setSizes (fresh 3 farHeadParams))).u.sqRing.buffer =
      some ⟨0x7f0000000000, 2400⟩ ∧
    (mmapRing kernelOk (setSizes (fresh 3 farHeadParams))).u.sqRing.head =
      some (0x7f0000000000 + 4096) ∧
    ¬ (0x7f0000000000 + 4096 < 0x7f0000000000 + 2400) := by
  refine ⟨by decide, by decide, by decide, by decide⟩

/-- C8, amended: after `setSizes` and `mmapRing` on a new instance, every
field handle that is constructed holds the address base + reported offset (in
64-bit arithmetic) of the buffer of its ring, with no bounds check; that
address is inside the region whenever the offset is smaller than the buffer's
length (the region lying inside the address space). No offset makes
`mmapRing` fail: it ends with `nil`, or with the error of a failed
completion-ring mapping call. -/
theorem handle_at_base_plus_offset (k : Kernel) (fd : Int) (params : UringParams) :
    (∀ (h : Option Nat) (buf : Option Buffer) (offset a : Nat),
      (h, buf, offset) ∈ handles (mmapRing k (setSizes (fresh fd params))).u → h = some a →
      ∃ b, buf = some b ∧ a = getPointer b.base offset ∧
        (offset < b.len → b.base + b.len ≤ 2 ^ 64 → b.base ≤ a ∧ a < b.base + b.len)) ∧
    ((mmapRing k (setSizes (fresh fd params))).ret = .nil ∨
      ∃ e length, (mmapRing k (setSizes (fresh fd params))).ret = .error e ∧
        Event.mmap cqRingOff length (.err e) ∈ (mmapRing k (setSizes (fresh fd params))).trace) := by
  have inside : ∀ (b : Buffer) (offset : Nat),
      offset < b.len → b.base + b.len ≤ 2 ^ 64 →
        b.base ≤ getPointer b.base offset ∧ getPointer b.base offset < b.base + b.len := by
    intro b offset h1 h2
    have hlt : b.base + offset < 2 ^ 64 := by omega
    unfold getPointer
    rw [Nat.mod_eq_of_lt hlt]
    omega
  rcases mmapRing_cases k (setSizes (fresh fd params)) with
    ⟨e, h1⟩ | ⟨b, h1, hs⟩ | ⟨b, e, h1, hs, h2⟩ | ⟨b1, b2, h1, hs, h2⟩
  · rw [mmapRing_sq_err h1]
    refine ⟨fun h buf offset a hmem ha => ?_, Or.inl rfl⟩
    subst ha
    simp [handles, setSizes, fresh, SqRing.zero, CqRing.zero] at hmem
  · rw [mmapRing_single h1 hs]
    refine ⟨fun h buf offset a hmem ha => ?_, Or.inl rfl⟩
    subst ha
    simp only [handles, resolved, setSizes, fresh, CqRing.zero, List.mem_cons, Prod.mk.injEq,
      List.mem_singleton, List.not_mem_nil, or_false] at hmem
    rcases hmem with h | h | h | h | h | h | h | h | h | h | h | h | h
    all_goals first
      | (obtain ⟨ha, hb, ho⟩ := h
         simp only [Option.some.injEq] at ha
         subst ha hb ho
         exact ⟨b, rfl, rfl, inside b _⟩)
      | (obtain ⟨ha, hb, ho⟩ := h
         simp at ha
         done)
      | (obtain ⟨ha, hb, ho⟩ := h
         subst hb ho
         split at ha
         · simp at ha
         · simp only [Option.some.injEq] at ha
           subst ha
           exact ⟨_, rfl, rfl, inside _ _⟩)
  · rw [mmapRing_cq_err h1 hs h2]
    refine ⟨fun h buf offset a hmem ha => ?_, Or.inr ⟨e, toInt (setSizes (fresh fd params)).cqRing.size, rfl, by simp⟩⟩
    subst ha
    simp [handles, setSizes, fresh, SqRing.zero, CqRing.zero] at hmem
  · rw [mmapRing_dual h1 hs h2]
    refine ⟨fun h buf offset a hmem ha => ?_, Or.inl rfl⟩
    subst ha
    simp only [handles, resolved, setSizes, fresh, CqRing.zero, List.mem_cons, Prod.mk.injEq,
      List.mem_singleton, List.not_mem_nil, or_false] at hmem
    rcases hmem with h | h | h | h | h | h | h | h | h | h | h | h | h
    all_goals first
      | (obtain ⟨ha, hb, ho⟩ := h
         simp only [Option.some.injEq] at ha
         subst ha hb ho
         exact ⟨_, rfl, rfl, inside _ _⟩)
      | (obtain ⟨ha, hb, ho⟩ := h
         simp at ha
         done)
      | (obtain ⟨ha, hb, ho⟩ := h
         subst hb ho
         split at ha
         · simp at ha
         · simp only [Option.some.injEq] at ha
           subst ha
           exact ⟨_, rfl, rfl, inside _ _⟩)

/-- The amended C8 on the record of a 32-entry ring: the submission ring's
tail handle, at reported offset 64 of a 2400-byte buffer, lies inside it. -/
theorem handle_at_base_plus_offset_witness :
    (some (0x7f0000000000 + 64), some (Buffer.mk 0x7f0000000000 2400), 64) ∈
        handles (mmapRing kernelOk (setSizes (fresh 3 (sampleParams 0)))).u ∧
      0x7f0000000000 ≤ 0x7f0000000000 + 64 ∧ 0x7f0000000000 + 64 < 0x7f0000000000 + 2400 := by
  have hmem : (some (0x7f0000000000 + 64), some (Buffer.mk 0x7f0000000000 2400), 64) ∈
      handles (mmapRing kernelOk (setSizes (fresh 3 (sampleParams 0)))).u := by decide
  obtain ⟨b, hb, _, hin⟩ :=
    (handle_at_base_plus_offset kernelOk 3 (sampleParams 0)).1 _ _ _ _ hmem rfl
  cases hb
  exact ⟨hmem, hin (by decide) (by decide)⟩

/-! ## Unwinding -/

/-- C9, as stated, fails: with the single-mapping bit clear, a kernel that
grants the submission-ring mapping and refuses the completion-ring mapping
makes `mmapRing` return the error after two mapping calls; the region mapped
by the first is not unmapped. -/
theorem mapped_region_not_released :
    (mmapRing kernelSqOnly (setSizes (fresh 3 (sampleParams 0)))).ret = .error 12 ∧
    (mmapRing kernelSqOnly (setSizes (fresh 3 (sampleParams 0)))).trace =
      [Event.mmap sqRingOff 2400 (.ok ⟨0x7f0000000000, 2400⟩),
       Event.mmap cqRingOff 4608 (.err 12)] ∧
    ¬ EveryMappingReleased (mmapRing kernelSqOnly (setSizes (fresh 3 (sampleParams 0)))).trace := by
  have ht : (mmapRing kernelSqOnly (setSizes (fresh 3 (sampleParams 0)))).trace =
      [Event.mmap sqRingOff 2400 (.ok ⟨0x7f0000000000, 2400⟩),
       Event.mmap cqRingOff 4608 (.err 12)] := by decide
  refine ⟨by decide, ht, fun hall => ?_⟩
  rw [ht] at hall
  obtain ⟨j, hj, hget⟩ := hall 0 sqRingOff 2400 ⟨0x7f0000000000, 2400⟩ rfl
  match j, hj with
  | 1, _ => simp at hget
  | j + 2, _ => simp at hget

/-- C9, amended: `mmapRing` makes no unmapping call. In every run, and so in
every run in which one mapping call succeeds and a later one fails, the calls
made are mapping calls only, and each region mapped is still mapped when
`mmapRing` returns. -/
theorem mmapRing_never_unmaps (k : Kernel) (u : Uring) (region : Buffer) :
    Event.munmap region ∉ (mmapRing k u).trace := by
  rcases mmapRing_cases k u with
    ⟨e, h1⟩ | ⟨b, h1, hs⟩ | ⟨b, e, h1, hs, h2⟩ | ⟨b1, b2, h1, hs, h2⟩
  · rw [mmapRing_sq_err h1]; simp
  · rw [mmapRing_single h1 hs]; simp
  · rw [mmapRing_cq_err h1 hs h2]; simp
  · rw [mmapRing_dual h1 hs h2]; simp

/-! ## The optional completion-ring flags field -/

/-- C10: in a run of `mmapRing` that reaches pointer resolution, on an instance
whose completion-ring flags handle is nil, the handle is resolved, at the base
of the completion ring's buffer plus `cqRingOffsets.flags`, if and only if
`cqRingOffsets.flags` is not zero; when it is zero the handle is still nil. -/
theorem cq_flags_resolved_iff_nonzero (k : Kernel) (u : Uring)
    (hnil : u.cqRing.flags = none) (hmap : RingsMapped k u) :
    ∃ b, (mmapRing k u).u.cqRing.buffer = some b ∧
      ((mmapRing k u).u.cqRing.flags = some (getPointer b.base u.params.cqRingOffsets.flags) ↔
        u.params.cqRingOffsets.flags ≠ 0) ∧
      ((mmapRing k u).u.cqRing.flags.isSome = true ↔ u.params.cqRingOffsets.flags ≠ 0) ∧
      (u.params.cqRingOffsets.flags = 0 → (mmapRing k u).u.cqRing.flags = none) := by
  obtain ⟨⟨b1, h1⟩, h2⟩ := hmap
  cases hs : singleMMap u.params with
  | true =>
    rw [mmapRing_single h1 hs]
    refine ⟨b1, rfl, ?_, ?_, ?_⟩ <;>
      by_cases hf : u.params.cqRingOffsets.flags = 0 <;> simp [resolved, hf, hnil]
  | false =>
    obtain ⟨b2, h2⟩ := h2 hs
    rw [mmapRing_dual h1 hs h2]
    refine ⟨b2, rfl, ?_, ?_, ?_⟩ <;>
      by_cases hf : u.params.cqRingOffsets.flags = 0 <;> simp [resolved, hf, hnil]

/-- The run of C10 on the record of a 32-entry ring, whose completion-ring
flags offset is 280, with a kernel that grants every mapping. -/
theorem cq_flags_resolved_iff_nonzero_witness :
    (sampleParams 0).cqRingOffsets.flags ≠ 0 ∧
    ∃ b, (mmapRing kernelOk (setSizes (fresh 3 (sampleParams 0)))).u.cqRing.buffer = some b ∧
      (mmapRing kernelOk (setSizes (fresh 3 (sampleParams 0)))).u.cqRing.flags =
        some (getPointer b.base 280) := by
  obtain ⟨b, hb, hiff, _, _⟩ :=
    cq_flags_resolved_iff_nonzero kernelOk (setSizes (fresh 3 (sampleParams 0))) rfl
      ⟨⟨⟨0x7f0000000000, 2400⟩, by decide⟩, fun _ => ⟨⟨0x7f0008000000, 4608⟩, by decide⟩⟩
  exact ⟨by decide, b, hb, hiff.2 (by decide)⟩

end IoUring
